import Mathlib

/-!
Shallow embedding of `python_library_graph` (files
`src/python_library_graph/grapher.py` and `src/python_library_graph/__main__.py`).

A dependency mapping (a Python dict `{package: [dependencies]}`) is embedded as
an association list `List (String × List String)` in insertion order (Python
dicts preserve insertion order and have unique keys).  A graph edge carries its
source, target and `title` attribute, mirroring
`G.add_edge(parent, child, title=...)`.
-/

/-- The fixed fallback mapping `MOCK_DEPENDENCY_DATA` from `grapher.py`. -/
def MOCK_DEPENDENCY_DATA : List (String × List String) :=
  [ ("python-library-graph", ["pytest", "networkx", "plotly", "kaleido"]),
    ("pytest", ["iniconfig", "packaging"]),
    ("networkx", ["decorator"]),
    ("plotly", ["numpy", "tenacity"]),
    ("kaleido", ["svgwrite"]),
    ("iniconfig", []),
    ("packaging", []),
    ("decorator", []),
    ("numpy", []),
    ("tenacity", []),
    ("svgwrite", []) ]

/-- An edge of the `networkx` digraph: (source, target, title attribute). -/
abbrev Edge := String × String × String

/-- Embedding of `nx.DiGraph.add_node`: adding an already-present node is a no-op;
a new node is appended (nodes are kept in insertion order). -/
def insertNode (ns : List String) (n : String) : List String :=
  if ns.contains n then ns else ns ++ [n]

/-- Embedding of `nx.DiGraph.add_edge parent child title`: a repeated (source, target) pair
updates the stored attribute in place; a new pair is appended. -/
def addEdge (es : List Edge) (e : Edge) : List Edge :=
  if es.any (fun e2 => e2.1 == e.1 && e2.2.1 == e.2.1) then
    es.map (fun e2 => if e2.1 == e.1 && e2.2.1 == e.2.1 then e else e2)
  else
    es ++ [e]

/-- The check `any(parent in sub_deps for sub_deps in dep_data.values())`
(grapher.py line 127). -/
def is_transitive_dependency (dep_data : List (String × List String))
    (parent : String) : Bool :=
  dep_data.any (fun entry => entry.2.contains parent)

/-- The set `top_level_deps` built by the first pass of
`generate_dependency_graph` (grapher.py lines 123-129): the keys of the
mapping that occur in no entry's child list. -/
def top_level_deps (dep_data : List (String × List String)) : List String :=
  (dep_data.filter (fun entry => !is_transitive_dependency dep_data entry.1)).map
    Prod.fst

/-- The nodes of the built graph: every key and every listed child in
encounter order (grapher.py lines 126-133), then the project root
(line 137). -/
def graphNodes (project_name : String)
    (dep_data : List (String × List String)) : List String :=
  let ns := dep_data.foldl
    (fun acc entry => entry.2.foldl insertNode (insertNode acc entry.1)) []
  insertNode ns project_name

/-- The "depends on" edges added by the first pass
(grapher.py lines 132-134). -/
def depEdges (dep_data : List (String × List String)) : List Edge :=
  dep_data.foldl
    (fun es entry =>
      entry.2.foldl (fun es2 child => addEdge es2 (entry.1, child, "depends on")) es)
    []

/-- The members of `top_level_deps` that get a root edge: the loop
`for dep in top_level_deps: if dep != project_name: G.add_edge(...)`
(grapher.py lines 138-140) filters out the project name. -/
def directSet (project_name : String)
    (dep_data : List (String × List String)) : List String :=
  (top_level_deps dep_data).filter (fun dep => dep != project_name)

/-- All edges of the built graph: the "depends on" edges, then one
"direct requirement" edge from the root to each member of `directSet`
(grapher.py lines 132-140). -/
def graphEdges (project_name : String)
    (dep_data : List (String × List String)) : List Edge :=
  (directSet project_name dep_data).foldl
    (fun es dep => addEdge es (project_name, dep, "direct requirement"))
    (depEdges dep_data)

/-- The targets of the edges labelled "direct requirement" that leave the
root: the observable DirectSet of the built graph. -/
def directRequirementTargets (project_name : String)
    (dep_data : List (String × List String)) : List String :=
  ((graphEdges project_name dep_data).filter
      (fun e => e.1 == project_name && e.2.2 == "direct requirement")).map
    (fun e => e.2.1)

/-! ## Node classification (grapher.py lines 234-275) -/

/-- Which of the four branches of the per-node colouring block fired. -/
inductive Tag
  | ProjectRoot
  | Community
  | DirectDependency
  | TransitiveDependency
  deriving DecidableEq, Repr

/-- The per-node output of the colouring block: marker colour, `title`
string, the reported `current_coloring_method`, the branch tag, and the raw
size tier (before the `* 10` scaling of line 274). -/
structure NodeClass where
  color : String
  title : String
  method : String
  tag : Tag
  size : Nat
  deriving DecidableEq, Repr

/-- The palette `pcolors.qualitative.Alphabet`: the fixed 26-colour qualitative palette
used for community colouring (grapher.py line 223). -/
def Alphabet : List String :=
  [ "#AA0DFE", "#3283FE", "#85660D", "#782AB6", "#565656", "#1C8356",
    "#16FF32", "#F7E1A0", "#E2E2E2", "#1CBE4F", "#C4451C", "#DEA0FD",
    "#FE00FA", "#325A9B", "#FEAF16", "#F8A19F", "#90AD1C", "#F6222E",
    "#1CFFCE", "#2ED9FF", "#B10DA1", "#C075A6", "#FC1CBF", "#B00068",
    "#FBE426", "#FA0087" ]

/-- The lookup `partition[node]` when `node in partition`, else `None`; the Louvain
partition is embedded as an association list node ↦ community id. -/
def lookupPartition (partition : List (String × Nat)) (node : String) :
    Option Nat :=
  (partition.find? (fun entry => entry.1 == node)).map Prod.snd

/-- The per-node branch of grapher.py lines 241-275.  `community_available`
is `community is not None`: whether the Louvain import and
`best_partition` call succeeded (lines 214-232); when it is false the
`partition` dict is never consulted, exactly as in the `elif` of line 254. -/
def classify (project_name : String) (top_level : List String)
    (community_available : Bool) (partition : List (String × Nat))
    (node : String) : NodeClass :=
  let size := if node == project_name then 3
    else if top_level.contains node then 2 else 1
  if node == project_name then
    { color := "#FFD700", title := "Root: " ++ node,
      method := "Project Root", tag := Tag.ProjectRoot, size := size }
  else
    match (if community_available then lookupPartition partition node
           else none) with
    | some community_id =>
        { color := Alphabet.getD (community_id % Alphabet.length) "",
          title := "Community " ++ toString community_id ++ ": " ++ node,
          method := "Community", tag := Tag.Community, size := size }
    | none =>
        if top_level.contains node then
          { color := "#8A2BE2", title := "Direct Dep: " ++ node,
            method := "Depth (Fallback)", tag := Tag.DirectDependency,
            size := size }
        else
          { color := "#4169E1", title := "Transitive Dep: " ++ node,
            method := "Depth (Fallback)", tag := Tag.TransitiveDependency,
            size := size }

/-! ## Dependency resolution (grapher.py lines 44-111)

`resolve_dependencies` shells out to `pipdeptree --json` inside a
`try` block whose handlers (`subprocess.CalledProcessError`, then
`Exception`) both return `MOCK_DEPENDENCY_DATA`.  The preliminary
`pipreqs` step (lines 54-69) only writes `requirements.txt` and
diagnostics; its caught failures do not change the return value, so it is
not part of the embedding.  The outcome of the external invocation is
embedded as an explicit sum. -/

/-- One entry of the parsed `pipdeptree --json` list: the optional
`package.key` and the optional `key` of each dependency (a `.get('key')`
can yield `None`). -/
structure PackageInfo where
  package_key : Option String
  dependencies : List (Option String)

/-- The possible outcomes of the `pipdeptree` invocation: parsed output, a
non-zero exit (`subprocess.CalledProcessError`), a missing interpreter or
tool (`FileNotFoundError`, a subclass of `Exception`), or output that
`json.loads` or the transform cannot parse (also `Exception`). -/
inductive PipdeptreeOutcome
  | ok (tree : List PackageInfo)
  | nonZeroExit (stderr : String)
  | missingTool
  | malformedOutput

/-- Python dict assignment `d[k] = v` on an insertion-ordered
association list. -/
def dictInsert (m : List (String × List String)) (k : String)
    (v : List String) : List (String × List String) :=
  if m.any (fun entry => entry.1 == k) then
    m.map (fun entry => if entry.1 == k then (k, v) else entry)
  else
    m ++ [(k, v)]

/-- The transform of grapher.py lines 86-94: keep entries whose package key
is present, with the present dependency keys. -/
def buildDependencyMap (tree : List PackageInfo) :
    List (String × List String) :=
  tree.foldl
    (fun m info =>
      match info.package_key with
      | some name => dictInsert m name (info.dependencies.filterMap id)
      | none => m)
    []

/-- The function `resolve_dependencies` (grapher.py lines 44-111) as a total function of
the invocation outcome: parsed output is transformed; every handled failure
returns the fixed fallback mapping. -/
def resolve_dependencies : PipdeptreeOutcome → List (String × List String)
  | PipdeptreeOutcome.ok tree => buildDependencyMap tree
  | PipdeptreeOutcome.nonZeroExit _ => MOCK_DEPENDENCY_DATA
  | PipdeptreeOutcome.missingTool => MOCK_DEPENDENCY_DATA
  | PipdeptreeOutcome.malformedOutput => MOCK_DEPENDENCY_DATA

/-! ## CLI entry point (`__main__.py`) -/

namespace Main

/-- The `resolve_dependencies` defined in `__main__.py` (lines 6-9): a
placeholder that prints a warning and returns the mock mapping.  `main`
imports only `generate_dependency_graph` and `MOCK_DEPENDENCY_DATA` from
`grapher`, so this local definition is the one `main` calls. -/
def resolve_dependencies : List (String × List String) :=
  MOCK_DEPENDENCY_DATA

end Main

/-- The `dependency_data` value computed by `main` (`__main__.py`
line 35), parameterised by the ambient `pipdeptree` outcome that
`grapher.resolve_dependencies` would see: `main` calls the local
placeholder, which consults no external state, so the parameter is
unused. -/
def main_dependency_data (_env : PipdeptreeOutcome) :
    List (String × List String) :=
  Main.resolve_dependencies

/-! ## Output files (grapher.py lines 321-340) -/

/-- Observable file-writing events of the last phase of
`generate_dependency_graph`. -/
inductive ExportEvent
  | htmlWritten (filename : String)
  | imageWritten (filename : String)
  | warning (msg : String)
  deriving DecidableEq, Repr

/-- The output phase of `generate_dependency_graph`: `fig.write_html`
(line 323) runs first, unconditionally; then `fig.write_image` runs inside
`try ... except Exception` (lines 328-340), so an export failure is turned
into a warning event.  The function is total: no outcome of the image
export escapes it. -/
def exportOutputs (html_filename screenshot_filename : String)
    (image_export : Except String Unit) : List ExportEvent :=
  let events := [ExportEvent.htmlWritten html_filename]
  match image_export with
  | Except.ok _ => events ++ [ExportEvent.imageWritten screenshot_filename]
  | Except.error e => events ++ [ExportEvent.warning e]

/-! ## Concrete inputs from the spec's testable properties -/

/-- The mapping of the spec's DirectSet example. -/
def exampleMapA : List (String × List String) :=
  [("root_pkg", ["a", "b"]), ("a", ["c"]), ("b", [])]

/-- The mapping of the spec's end-to-end scenario. -/
def exampleMapB : List (String × List String) :=
  [("proj", ["x"]), ("x", ["y"]), ("y", [])]

/-- A mapping whose root lists itself as its own child. -/
def selfLoopMap : List (String × List String) :=
  [("r", ["r"])]

/-- A two-entry mapping with one top-level key, used to instantiate the
DirectSet invariants. -/
def twoLevelMap : List (String × List String) :=
  [("p", ["c"]), ("c", [])]

/-! ## Helper lemmas -/

/-- Membership after `addEdge`: an element of the result is an old element
or the inserted edge. -/
theorem mem_addEdge {es : List Edge} {x e : Edge} (h : e ∈ addEdge es x) :
    e ∈ es ∨ e = x := by
  unfold addEdge at h
  split at h
  · rcases List.mem_map.mp h with ⟨a, ha, hae⟩
    by_cases hc : (a.1 == x.1 && a.2.1 == x.2.1) = true
    · right
      rw [if_pos hc] at hae
      exact hae.symm
    · left
      rw [if_neg hc] at hae
      exact hae ▸ ha
  · rcases List.mem_append.mp h with h1 | h1
    · exact Or.inl h1
    · right
      simpa using h1

/-- Every edge produced by the inner child loop of the first pass keeps the
"depends on" label. -/
theorem depEdges_inner_label (p : String) (cs : List String) (es : List Edge)
    (hbase : ∀ e ∈ es, e.2.2 = "depends on") :
    ∀ e ∈ cs.foldl (fun es2 child => addEdge es2 (p, child, "depends on")) es,
      e.2.2 = "depends on" := by
  induction cs generalizing es with
  | nil => exact hbase
  | cons c cs ih =>
    intro e he
    refine ih _ ?_ e he
    intro e2 he2
    rcases mem_addEdge he2 with h | h
    · exact hbase e2 h
    · rw [h]

/-- Every edge of the first pass carries the "depends on" label. -/
theorem depEdges_label (dep_data : List (String × List String)) :
    ∀ e ∈ depEdges dep_data, e.2.2 = "depends on" := by
  unfold depEdges
  suffices h : ∀ (l : List (String × List String)) (es : List Edge),
      (∀ e ∈ es, e.2.2 = "depends on") →
      ∀ e ∈ l.foldl
        (fun es entry =>
          entry.2.foldl
            (fun es2 child => addEdge es2 (entry.1, child, "depends on")) es)
        es, e.2.2 = "depends on" by
    exact h dep_data [] (by simp)
  intro l
  induction l with
  | nil => intro es hb; exact hb
  | cons hd tl ih =>
    intro es hb
    exact ih _ (depEdges_inner_label hd.1 hd.2 es hb)

/-- Every edge of the built graph is a first-pass edge or a
"direct requirement" edge from the root to a member of `directSet`. -/
theorem mem_graphEdges (project_name : String)
    (dep_data : List (String × List String)) :
    ∀ e ∈ graphEdges project_name dep_data,
      e ∈ depEdges dep_data ∨
        ∃ d ∈ directSet project_name dep_data,
          e = (project_name, d, "direct requirement") := by
  unfold graphEdges
  suffices h : ∀ (ds : List String) (es : List Edge),
      ∀ e ∈ ds.foldl
        (fun es dep => addEdge es (project_name, dep, "direct requirement")) es,
        e ∈ es ∨ ∃ d ∈ ds, e = (project_name, d, "direct requirement") by
    intro e he
    rcases h (directSet project_name dep_data) (depEdges dep_data) e he with
      h1 | ⟨d, hd, he2⟩
    · exact Or.inl h1
    · exact Or.inr ⟨d, hd, he2⟩
  intro ds
  induction ds with
  | nil =>
    intro es e he
    exact Or.inl he
  | cons d ds ih =>
    intro es e he
    rcases ih _ e he with h1 | ⟨d2, hd2, he2⟩
    · rcases mem_addEdge h1 with h2 | h2
      · exact Or.inl h2
      · exact Or.inr ⟨d, List.mem_cons_self d ds, h2⟩
    · exact Or.inr ⟨d2, List.mem_cons_of_mem d hd2, he2⟩

/-- Unfolding membership in `directSet`: a member differs from the root, is
a key of the mapping, and occurs in no entry's child list. -/
theorem directSet_spec {project_name : String}
    {dep_data : List (String × List String)} {d : String}
    (h : d ∈ directSet project_name dep_data) :
    d ≠ project_name ∧ (∃ cs, (d, cs) ∈ dep_data) ∧
      ∀ entry ∈ dep_data, d ∉ entry.2 := by
  rcases List.mem_filter.mp h with ⟨htop, hne⟩
  have hdne : d ≠ project_name := by simpa using hne
  rcases List.mem_map.mp htop with ⟨entry, hentry, hfst⟩
  rcases List.mem_filter.mp hentry with ⟨hmem, hnt⟩
  refine ⟨hdne, ⟨entry.2, ?_⟩, ?_⟩
  · have : entry = (d, entry.2) := by
      cases entry
      simp_all
    exact this ▸ hmem
  · intro entry2 hmem2 hcontra
    rw [hfst] at hnt
    simp only [is_transitive_dependency, Bool.not_eq_true', List.any_eq_false] at hnt
    have := hnt entry2 hmem2
    simp_all

/-! ## Claims -/

/-- C3: every node's classification carries exactly one of the four tags,
and the tag is `ProjectRoot` exactly when the node equals the root name,
for every partition — including partitions that contain an entry for the
root node. -/
theorem c3_root_tag_iff (project_name : String) (top_level : List String)
    (community_available : Bool) (partition : List (String × Nat))
    (node : String) :
    ((classify project_name top_level community_available partition node).tag
        = Tag.ProjectRoot ↔ node = project_name) ∧
    ((classify project_name top_level community_available partition node).tag
        = Tag.ProjectRoot ∨
     (classify project_name top_level community_available partition node).tag
        = Tag.Community ∨
     (classify project_name top_level community_available partition node).tag
        = Tag.DirectDependency ∨
     (classify project_name top_level community_available partition node).tag
        = Tag.TransitiveDependency) := by
  unfold classify
  by_cases h : node = project_name
  · simp [h]
  · simp only [beq_iff_eq, h, if_false, reduceIte]
    cases hm : (if community_available then lookupPartition partition node
        else none) with
    | some community_id => simp [h]
    | none =>
      by_cases ht : node ∈ top_level
      · simp [h, ht]
      · simp [h, ht]

/-- C4: with community detection available, a non-root node with a
partition entry gets colour `Alphabet[id % 26]` exactly, title
`"Community {id}: {node}"`, the `Community` tag, and any two such nodes
with the same community id get identical colours. -/
theorem c4_community_color (project_name n1 n2 : String)
    (top_level : List String) (partition : List (String × Nat))
    (community_id : Nat)
    (h1 : n1 ≠ project_name) (h2 : n2 ≠ project_name)
    (hp1 : lookupPartition partition n1 = some community_id)
    (hp2 : lookupPartition partition n2 = some community_id) :
    (classify project_name top_level true partition n1).color
        = Alphabet.getD (community_id % Alphabet.length) "" ∧
    (classify project_name top_level true partition n1).title
        = "Community " ++ toString community_id ++ ": " ++ n1 ∧
    (classify project_name top_level true partition n1).tag = Tag.Community ∧
    (classify project_name top_level true partition n1).color
        = (classify project_name top_level true partition n2).color := by
  unfold classify
  simp [h1, h2, hp1, hp2]

/-- Witness for C4 at a concrete partition assigning community 3 to both
"a" and "b" under root "r". -/
theorem c4_community_color_witness :
    ("a" ≠ "r" ∧ "b" ≠ "r" ∧
      lookupPartition [("a", 3), ("b", 3)] "a" = some 3 ∧
      lookupPartition [("a", 3), ("b", 3)] "b" = some 3) ∧
    ((classify "r" [] true [("a", 3), ("b", 3)] "a").color
        = Alphabet.getD (3 % Alphabet.length) "" ∧
     (classify "r" [] true [("a", 3), ("b", 3)] "a").title
        = "Community " ++ toString 3 ++ ": " ++ "a" ∧
     (classify "r" [] true [("a", 3), ("b", 3)] "a").tag = Tag.Community ∧
     (classify "r" [] true [("a", 3), ("b", 3)] "a").color
        = (classify "r" [] true [("a", 3), ("b", 3)] "b").color) :=
  ⟨⟨by decide, by decide, by decide, by decide⟩,
    c4_community_color "r" "a" "b" [] [("a", 3), ("b", 3)] 3
      (by decide) (by decide) (by decide) (by decide)⟩

/-- C5: with no community partition available, a non-root node is tagged
`DirectDependency` exactly when it lies in the computed DirectSet and
`TransitiveDependency` otherwise; direct nodes all get the one fixed colour
"#8A2BE2", transitive nodes all get the one fixed colour "#4169E1", and the
two colours differ. -/
theorem c5_fallback_classification (dep_data : List (String × List String))
    (project_name node : String) (partition : List (String × Nat))
    (h : node ≠ project_name) :
    ((classify project_name (top_level_deps dep_data) false partition node).tag
        = Tag.DirectDependency ↔ node ∈ directSet project_name dep_data) ∧
    ((classify project_name (top_level_deps dep_data) false partition node).tag
        = Tag.TransitiveDependency ↔
          node ∉ directSet project_name dep_data) ∧
    ((classify project_name (top_level_deps dep_data) false partition node).tag
        = Tag.DirectDependency →
      (classify project_name (top_level_deps dep_data) false partition node).color
        = "#8A2BE2") ∧
    ((classify project_name (top_level_deps dep_data) false partition node).tag
        = Tag.TransitiveDependency →
      (classify project_name (top_level_deps dep_data) false partition node).color
        = "#4169E1") ∧
    "#8A2BE2" ≠ "#4169E1" := by
  have hmem : node ∈ directSet project_name dep_data ↔
      node ∈ top_level_deps dep_data := by
    unfold directSet
    rw [List.mem_filter]
    simp [h]
  unfold classify
  by_cases ht : node ∈ top_level_deps dep_data
  · simp [h, ht, hmem]
  · simp [h, ht, hmem]

/-- Witness for C5 on the spec's end-to-end mapping with root "proj" and
node "x". -/
theorem c5_fallback_classification_witness :
    ("x" ≠ "proj") ∧
    (((classify "proj" (top_level_deps exampleMapB) false [] "x").tag
        = Tag.DirectDependency ↔ "x" ∈ directSet "proj" exampleMapB) ∧
     ((classify "proj" (top_level_deps exampleMapB) false [] "x").tag
        = Tag.TransitiveDependency ↔
          "x" ∉ directSet "proj" exampleMapB) ∧
     ((classify "proj" (top_level_deps exampleMapB) false [] "x").tag
        = Tag.DirectDependency →
       (classify "proj" (top_level_deps exampleMapB) false [] "x").color
        = "#8A2BE2") ∧
     ((classify "proj" (top_level_deps exampleMapB) false [] "x").tag
        = Tag.TransitiveDependency →
       (classify "proj" (top_level_deps exampleMapB) false [] "x").color
        = "#4169E1") ∧
     "#8A2BE2" ≠ "#4169E1") :=
  ⟨by decide, c5_fallback_classification exampleMapB "proj" "x" [] (by decide)⟩

/-- C6: every handled failure of the `pipdeptree` invocation — non-zero
exit, missing tool, malformed output — makes `resolve_dependencies` return
exactly the fixed fallback mapping; the embedding is a total function, so
no failure escapes to the caller. -/
theorem c6_resolve_fallback :
    (∀ stderr, resolve_dependencies (PipdeptreeOutcome.nonZeroExit stderr)
        = MOCK_DEPENDENCY_DATA) ∧
    resolve_dependencies PipdeptreeOutcome.missingTool
        = MOCK_DEPENDENCY_DATA ∧
    resolve_dependencies PipdeptreeOutcome.malformedOutput
        = MOCK_DEPENDENCY_DATA :=
  ⟨fun _ => rfl, rfl, rfl⟩

/-- C7: the CLI's dependency data is the mock mapping for every ambient
`pipdeptree` outcome — `main` calls the placeholder resolver defined in
`__main__.py`, which ignores the environment, so the `grapher.py` resolver
is not on the CLI path and the result never varies. -/
theorem c7_cli_uses_mock :
    (∀ env, main_dependency_data env = MOCK_DEPENDENCY_DATA) ∧
    (∀ env1 env2, main_dependency_data env1 = main_dependency_data env2) :=
  ⟨fun _ => rfl, fun _ _ => rfl⟩

/-- C8: when the static image export fails, the output phase still returns
normally with the HTML write first and a warning event in place of the
image event; for every export outcome the HTML document is the first event
produced, before the image export is attempted. -/
theorem c8_image_export_best_effort
    (html_filename screenshot_filename msg : String) :
    exportOutputs html_filename screenshot_filename (Except.error msg)
        = [ExportEvent.htmlWritten html_filename, ExportEvent.warning msg] ∧
    (∀ image_export,
      (exportOutputs html_filename screenshot_filename image_export).head?
        = some (ExportEvent.htmlWritten html_filename)) := by
  constructor
  · rfl
  · intro image_export
    cases image_export <;> rfl

/-- C9: the empty mapping yields a graph whose only node is the root and
which has no edges (and the build is a total function, so no error is
raised). -/
theorem c9_empty_mapping (project_name : String) :
    graphNodes project_name [] = [project_name] ∧
    graphEdges project_name [] = [] :=
  ⟨rfl, rfl⟩

/-- C1 counterexample: for the spec's DirectSet example mapping, no
"direct requirement" edge is added at all when the root is "root_pkg"
(its only never-referenced key is the root itself), so the DirectSet is
not {"a","b"}; with any other root name the DirectSet is {"root_pkg"},
which again is not {"a","b"}. -/
theorem c1_directset_counterexample :
    directRequirementTargets "root_pkg" exampleMapA = [] ∧
    "a" ∉ directRequirementTargets "root_pkg" exampleMapA ∧
    "b" ∉ directRequirementTargets "root_pkg" exampleMapA ∧
    directRequirementTargets "other_project" exampleMapA = ["root_pkg"] ∧
    "a" ∉ directRequirementTargets "other_project" exampleMapA := by
  refine ⟨rfl, ?_, ?_, rfl, ?_⟩ <;> decide

/-- C1 (amended): for the mapping {"root_pkg": ["a","b"], "a": ["c"],
"b": []} with root "root_pkg", the computed DirectSet is empty — the only
key never referenced as a child is "root_pkg" itself, which the root loop
skips — and node "c" (like "a" and "b") is classified as transitive. -/
theorem c1_directset_amended :
    directRequirementTargets "root_pkg" exampleMapA = [] ∧
    (classify "root_pkg" (top_level_deps exampleMapA) false [] "c").tag
        = Tag.TransitiveDependency ∧
    (classify "root_pkg" (top_level_deps exampleMapA) false [] "a").tag
        = Tag.TransitiveDependency ∧
    (classify "root_pkg" (top_level_deps exampleMapA) false [] "b").tag
        = Tag.TransitiveDependency :=
  ⟨rfl, rfl, rfl, rfl⟩

/-- C2 counterexample: in the end-to-end scenario the computed DirectSet
is empty rather than {"x"}, and node "x" receives the transitive colour
"#4169E1", not the direct colour "#8A2BE2". -/
theorem c2_end_to_end_counterexample :
    directRequirementTargets "proj" exampleMapB = [] ∧
    "x" ∉ directRequirementTargets "proj" exampleMapB ∧
    (classify "proj" (top_level_deps exampleMapB) false [] "x").color
        = "#4169E1" ∧
    "#4169E1" ≠ "#8A2BE2" := by
  refine ⟨rfl, ?_, rfl, ?_⟩ <;> decide

/-- C2 (amended): for mapping {"proj": ["x"], "x": ["y"], "y": []} with
root "proj", the graph has exactly 3 nodes and 2 edges, the computed
DirectSet is empty, and with community detection unavailable nodes "x" and
"y" both receive the TransitiveDependency colour while "proj" receives the
ProjectRoot colour. -/
theorem c2_end_to_end_amended :
    (graphNodes "proj" exampleMapB).length = 3 ∧
    (graphEdges "proj" exampleMapB).length = 2 ∧
    directRequirementTargets "proj" exampleMapB = [] ∧
    (classify "proj" (top_level_deps exampleMapB) false [] "x").color
        = "#4169E1" ∧
    (classify "proj" (top_level_deps exampleMapB) false [] "x").tag
        = Tag.TransitiveDependency ∧
    (classify "proj" (top_level_deps exampleMapB) false [] "y").color
        = "#4169E1" ∧
    (classify "proj" (top_level_deps exampleMapB) false [] "y").tag
        = Tag.TransitiveDependency ∧
    (classify "proj" (top_level_deps exampleMapB) false [] "proj").color
        = "#FFD700" ∧
    (classify "proj" (top_level_deps exampleMapB) false [] "proj").tag
        = Tag.ProjectRoot :=
  ⟨rfl, rfl, rfl, rfl, rfl, rfl, rfl, rfl, rfl⟩

/-- C10 counterexample: when the input mapping lists the root as its own
child, the first pass does add a root-to-root self-loop edge (labelled
"depends on"), so "no root-to-root self-loop edge is ever added" fails as
stated. -/
theorem c10_self_loop_counterexample :
    ("r", "r", "depends on") ∈ graphEdges "r" selfLoopMap ∧
    (∃ e ∈ graphEdges "r" selfLoopMap, e.1 = "r" ∧ e.2.1 = "r") := by
  constructor
  · decide
  · exact ⟨("r", "r", "depends on"), by decide, rfl, rfl⟩

/-- C10 (amended): every member of the computed DirectSet is a key of the
input mapping, occurs in no entry's child list (its own included), and
differs from the root name; and no "direct requirement" edge is ever a
self-loop — each such edge leaves the root and its target differs from the
root. -/
theorem c10_directset_invariants (project_name : String)
    (dep_data : List (String × List String)) (d : String)
    (hd : d ∈ directRequirementTargets project_name dep_data) :
    (∃ cs, (d, cs) ∈ dep_data) ∧
    (∀ entry ∈ dep_data, d ∉ entry.2) ∧
    d ≠ project_name ∧
    (∀ e ∈ graphEdges project_name dep_data,
        e.2.2 = "direct requirement" →
          e.1 = project_name ∧ e.2.1 ≠ project_name) := by
  have hedge : ∀ e ∈ graphEdges project_name dep_data,
      e.2.2 = "direct requirement" →
        e.1 = project_name ∧ e.2.1 ∈ directSet project_name dep_data := by
    intro e he hlabel
    rcases mem_graphEdges project_name dep_data e he with h1 | ⟨d2, hd2, he2⟩
    · have := depEdges_label dep_data e h1
      rw [this] at hlabel
      exact absurd hlabel (by decide)
    · rw [he2]
      exact ⟨rfl, hd2⟩
  have hmem : d ∈ directSet project_name dep_data := by
    rcases List.mem_map.mp hd with ⟨e, hef, het⟩
    rcases List.mem_filter.mp hef with ⟨heg, hcond⟩
    have hlabel : e.2.2 = "direct requirement" := by
      have := (Bool.and_eq_true _ _).mp hcond
      exact beq_iff_eq.mp this.2
    have := (hedge e heg hlabel).2
    exact het ▸ this
  rcases directSet_spec hmem with ⟨hne, hkey, hnochild⟩
  refine ⟨hkey, hnochild, hne, ?_⟩
  intro e he hlabel
  rcases hedge e he hlabel with ⟨hsrc, htgt⟩
  exact ⟨hsrc, (directSet_spec htgt).1⟩

/-- Witness for C10 on a two-entry mapping whose key "p" is never a child:
"p" is in the DirectSet of root "r" and satisfies all the invariants. -/
theorem c10_directset_invariants_witness :
    ("p" ∈ directRequirementTargets "r" twoLevelMap) ∧
    ((∃ cs, ("p", cs) ∈ twoLevelMap) ∧
     (∀ entry ∈ twoLevelMap, "p" ∉ entry.2) ∧
     "p" ≠ "r" ∧
     (∀ e ∈ graphEdges "r" twoLevelMap,
        e.2.2 = "direct requirement" → e.1 = "r" ∧ e.2.1 ≠ "r")) :=
  ⟨by decide, c10_directset_invariants "r" twoLevelMap "p" (by decide)⟩
